import Mathlib

/-!
Verification of the data-preparation, filtering and aggregation pipeline of a
sports-licenses dashboard.  Tables are embedded as lists of rows; raw cells are
`Option Int` (`none` models a missing value or a value that fails numeric
parsing and is coerced to 0 by the cleaning step).
-/

/-- `listStarts p s` : the character list `s` starts with the pattern `p`
(model of Python `str.startswith`). -/
def listStarts : List Char → List Char → Bool
  | [], _ => true
  | _ :: _, [] => false
  | p :: ps, c :: cs => p == c && listStarts ps cs

/-- `listHasSub p s` : the pattern `p` occurs as a contiguous run inside `s`
(model of Python `p in s`). -/
def listHasSub (p : List Char) : List Char → Bool
  | [] => listStarts p []
  | c :: cs => listStarts p (c :: cs) || listHasSub p cs

/-- String wrapper for `listStarts`. -/
def strStarts (p s : String) : Bool := listStarts p.toList s.toList

/-- String wrapper for `listHasSub`. -/
def strHasSub (p s : String) : Bool := listHasSub p.toList s.toList

/-- Fuel-indexed replace-all on character lists; the fuel is the length of the
scanned list, so the recursion is structural. -/
def replaceAllAux (p r : List Char) : Nat → List Char → List Char
  | 0, s => s
  | _ + 1, [] => []
  | fuel + 1, c :: cs =>
    if listStarts p (c :: cs) && !p.isEmpty then
      r ++ replaceAllAux p r fuel ((c :: cs).drop p.length)
    else
      c :: replaceAllAux p r fuel cs

/-- Replace every occurrence of `p` in `s` by `r`
(model of pandas `.str.replace(p, r)`). -/
def strReplaceAll (p r s : String) : String :=
  ⟨replaceAllAux p.toList r.toList s.toList.length s.toList⟩

/-- A raw row of the input table.  The four geographic/categorical columns are
always strings; the `Total` column and every other (numeric-bearing) column is
an `Option Int` cell, keyed by column name. -/
structure RRow where
  federation : String
  region : String
  departement : String
  communeCode : String
  total : Option Int
  cells : List (String × Option Int)
  deriving DecidableEq, Repr

/-- The raw table: the list of column names together with the rows. -/
structure RawTable where
  cols : List String
  rows : List RRow
  deriving Repr

/-- A cleaned row (`LicenseRecord`): numeric columns coerced to `Int`, with the
two derived per-gender aggregates and the age-bracket columns as an
association list. -/
structure CRow where
  federation : String
  region : String
  departement : String
  communeCode : String
  totalLicences : Int
  femaleLicences : Int
  maleLicences : Int
  counts : List (String × Int)
  deriving DecidableEq, Repr

/-- Numeric coercion of one raw cell: a missing / non-numeric value becomes 0
(model of `pd.to_numeric(..., errors='coerce')` followed by `fillna(0)`). -/
def coerceCell (o : Option Int) : Int := o.getD 0

/-- Look up a raw cell by column name (first matching column). -/
def rawCell (r : RRow) (c : String) : Option Int :=
  match r.cells.find? (fun p => p.1 == c) with
  | some p => p.2
  | none => none

/-- The age columns discovered by the naming pattern: every column whose name
contains the separator `" - "`. -/
def ageColsOf (t : RawTable) : List String :=
  t.cols.filter (fun c => strHasSub " - " c)

/-- The female bracket columns: age columns starting with `"F - "`. -/
def fColsOf (t : RawTable) : List String :=
  (ageColsOf t).filter (fun c => strStarts "F - " c)

/-- The male bracket columns: age columns starting with `"H - "`. -/
def hColsOf (t : RawTable) : List String :=
  (ageColsOf t).filter (fun c => strStarts "H - " c)

/-- Cleaning of one row: coerce the total and every age column, and derive the
two per-gender row-wise sums. -/
def cleanRow (ageCols fcols hcols : List String) (r : RRow) : CRow :=
  { federation := r.federation
    region := r.region
    departement := r.departement
    communeCode := r.communeCode
    totalLicences := coerceCell r.total
    femaleLicences := (fcols.map (fun c => coerceCell (rawCell r c))).sum
    maleLicences := (hcols.map (fun c => coerceCell (rawCell r c))).sum
    counts := ageCols.map (fun c => (c, coerceCell (rawCell r c))) }

/-- `clean_and_prep_data` : returns `none` (the empty result) on an empty input
table, otherwise the cleaned table together with the discovered female and
male bracket-column lists. -/
def clean_and_prep_data (t : RawTable) :
    Option (List CRow × List String × List String) :=
  if t.rows.isEmpty then none
  else
    some (t.rows.map (cleanRow (ageColsOf t) (fColsOf t) (hColsOf t)),
          fColsOf t, hColsOf t)

/-- Look up a cleaned count column by name; a column absent from the row reads
as 0. -/
def getCount (r : CRow) (c : String) : Int :=
  match r.counts.find? (fun p => p.1 == c) with
  | some p => p.2
  | none => 0

/-- The three gender modes of the sidebar radio control. -/
inductive Gender
  | all
  | male
  | female
  deriving DecidableEq, Repr

/-- Set every column of `cols` that exists in the association list to 0
(model of `for col in cols: if col in df.columns: df[col] = 0`). -/
def zeroCols (cols : List String) (counts : List (String × Int)) :
    List (String × Int) :=
  counts.map (fun p => if p.1 ∈ cols then (p.1, 0) else p)

/-- The gender-mode overwrite of one row: Male mode replaces the total by the
male aggregate and zeroes the female aggregate and the female bracket columns;
Female mode is symmetric; All mode changes nothing. -/
def genderAdjust (g : Gender) (fcols hcols : List String) (r : CRow) : CRow :=
  match g with
  | .all => r
  | .male =>
      { r with totalLicences := r.maleLicences, femaleLicences := 0,
               counts := zeroCols fcols r.counts }
  | .female =>
      { r with totalLicences := r.femaleLicences, maleLicences := 0,
               counts := zeroCols hcols r.counts }

/-- Row restriction by the two multiselects: an empty selection places no
restriction, a non-empty one keeps the rows whose federation (resp. region) is
a member of the selection. -/
def filterRows (df : List CRow) (selFeds selRegions : List String) :
    List CRow :=
  let d1 := if selFeds.isEmpty then df
            else df.filter (fun r => selFeds.contains r.federation)
  if selRegions.isEmpty then d1
  else d1.filter (fun r => selRegions.contains r.region)

/-- The full filtering block of the app: row restriction followed by the
gender-mode overwrite applied to every remaining row. -/
def filterEngine (df : List CRow) (fcols hcols selFeds selRegions : List String)
    (g : Gender) : List CRow :=
  (filterRows df selFeds selRegions).map (genderAdjust g fcols hcols)

/-- The app's filtering section as a state transformer over the pair
(df_main, df_filtered): the engine works on a copy, and the returned first
component is the state of the cleaned table after the block has run. -/
def appFilterBlock (df : List CRow)
    (fcols hcols selFeds selRegions : List String) (g : Gender) :
    List CRow × List CRow :=
  (df, filterEngine df fcols hcols selFeds selRegions g)

/-- Sum of the `Total_Licences` column over a table. -/
def sumTotal (df : List CRow) : Int := (df.map (·.totalLicences)).sum

/-- The three KPI values: total licences, number of associations, and the
average per club (0 when the table is empty - a defined result, not an
error). -/
def plot_kpi_metrics (df : List CRow) : Int × Nat × ℚ :=
  let total := sumTotal df
  let n := df.length
  let avg : ℚ := if 0 < n then (total : ℚ) / (n : ℚ) else 0
  (total, n, avg)

/-- Lexicographic comparison of character lists by code point. -/
def charListLE : List Char → List Char → Bool
  | [], _ => true
  | _ :: _, [] => false
  | a :: as, b :: bs => if a == b then charListLE as bs else a.toNat.blt b.toNat

/-- Lexicographic order on strings (the order a grouping operation sorts its
keys by). -/
def strKeyLE (a b : String) : Prop := charListLE a.toList b.toList = true

instance : DecidableRel strKeyLE :=
  fun a b => inferInstanceAs (Decidable (charListLE a.toList b.toList = true))

/-- The distinct values of a key column in the sorted order produced by a
grouping operation. -/
def sortedKeys (l : List String) : List String :=
  List.insertionSort strKeyLE l.dedup

/-- The geographic aggregation feeding the choropleth: one record per
department present in the filtered table, with the sum of total licences and
the number of rows (every row carries a commune code, so the non-null count of
commune codes is the row count of the group). -/
def plot_choropleth_map (df : List CRow) : List (String × Int × Nat) :=
  (sortedKeys (df.map (·.departement))).map
    (fun d => (d, sumTotal (df.filter (fun r => r.departement == d)),
               (df.filter (fun r => r.departement == d)).length))

/-- The two ranking modes of the top-federations chart. -/
inductive RankBy
  | licences
  | implantation
  deriving DecidableEq, Repr

/-- The ranking metric of one federation over a filtered table: summed total
licences, or the number of rows (associations). -/
def fedMetric (df : List CRow) (b : RankBy) (f : String) : Int :=
  match b with
  | .licences => sumTotal (df.filter (fun r => r.federation == f))
  | .implantation => ((df.filter (fun r => r.federation == f)).length : Int)

/-- Comparison of keyed metric values, ascending. -/
def valLE (a b : String × Int) : Prop := a.2 ≤ b.2

/-- Comparison of keyed metric values, descending. -/
def valGE (a b : String × Int) : Prop := b.2 ≤ a.2

instance : DecidableRel valLE := fun a b => inferInstanceAs (Decidable (a.2 ≤ b.2))

instance : DecidableRel valGE := fun a b => inferInstanceAs (Decidable (b.2 ≤ a.2))

instance : IsTotal (String × Int) valLE := ⟨fun a b => le_total a.2 b.2⟩

instance : IsTrans (String × Int) valLE := ⟨fun _ _ _ h1 h2 => le_trans h1 h2⟩

instance : IsTotal (String × Int) valGE := ⟨fun a b => le_total b.2 a.2⟩

instance : IsTrans (String × Int) valGE := ⟨fun _ _ _ h1 h2 => le_trans h2 h1⟩

/-- The per-federation aggregation of the ranking chart: `groupby(...).sum()`
(keys in sorted order) for licences, `value_counts()` (descending counts) for
implantation. -/
def aggBy (df : List CRow) (b : RankBy) : List (String × Int) :=
  match b with
  | .licences =>
      (sortedKeys (df.map (·.federation))).map
        (fun f => (f, fedMetric df .licences f))
  | .implantation =>
      List.insertionSort valGE
        ((df.map (·.federation)).dedup.map
          (fun f => (f, fedMetric df .implantation f)))

/-- `nlargest(15)`: the 15 entries with the largest values. -/
def nlargest15 (l : List (String × Int)) : List (String × Int) :=
  (List.insertionSort valGE l).take 15

/-- The top-federations ranking: per-federation aggregate, 15 largest, then
sorted ascending for horizontal-bar display. -/
def plot_top_federations (df : List CRow) (b : RankBy) : List (String × Int) :=
  List.insertionSort valLE (nlargest15 (aggBy df b))

/-- One entry of the age-pyramid data: stripped bracket label, signed licence
count (the plotting device), gender tag, and the true absolute count kept for
tooltips. -/
structure PyrEntry where
  tranche : String
  licences : Int
  sexe : String
  absLicences : Int
  deriving DecidableEq, Repr

/-- Column-wise sum of one bracket column over the filtered rows. -/
def colSum (df : List CRow) (c : String) : Int :=
  (df.map (fun r => getCount r c)).sum

/-- The age-pyramid data: `none` models the placeholder figure returned when a
bracket-column list is unavailable or the filtered table is empty; otherwise
the concatenation of the female series (positive sign) and the male series
(negated sign), each entry retaining its absolute value. -/
def plot_age_pyramid (fcols hcols : List String) (df : List CRow) :
    Option (List PyrEntry) :=
  if fcols.isEmpty || hcols.isEmpty then none
  else if df.isEmpty then none
  else
    let dataF := fcols.map (fun c =>
      { tranche := strReplaceAll "F - " "" c, licences := colSum df c,
        sexe := "Female", absLicences := colSum df c })
    let dataH := hcols.map (fun c =>
      { tranche := strReplaceAll "H - " "" c, licences := -(colSum df c),
        sexe := "Male", absLicences := colSum df c })
    let pyr := dataF ++ dataH
    if pyr.isEmpty then none else some pyr

/-- A small concrete raw table used to instantiate the universally quantified
theorems below. -/
def sampleRaw : RawTable :=
  { cols := ["Fédération", "Région", "Département", "Code Commune", "Total",
             "F - 1 à 4 ans", "H - 1 à 4 ans"]
    rows :=
      [{ federation := "FF Football", region := "IDF", departement := "75",
         communeCode := "75056", total := some 10,
         cells := [("F - 1 à 4 ans", some 3), ("H - 1 à 4 ans", some 7)] },
       { federation := "FF Tennis", region := "IDF", departement := "92",
         communeCode := "92002", total := some 5,
         cells := [("F - 1 à 4 ans", some 1), ("H - 1 à 4 ans", none)] }] }

/-- A raw table holding a negative numeric cell in an age-bracket column. -/
def negRaw : RawTable :=
  { cols := ["Total", "F - 1 à 4 ans"]
    rows :=
      [{ federation := "FF Football", region := "IDF", departement := "75",
         communeCode := "75056", total := some 10,
         cells := [("F - 1 à 4 ans", some (-3))] }] }

/-- The cleaned table obtained from `sampleRaw`. -/
def sampleClean : List CRow :=
  sampleRaw.rows.map
    (cleanRow (ageColsOf sampleRaw) (fColsOf sampleRaw) (hColsOf sampleRaw))

/-- The first row of `sampleClean` after the Male-mode overwrite. -/
def sampleMaleRow : CRow :=
  { federation := "FF Football", region := "IDF", departement := "75",
    communeCode := "75056", totalLicences := 7, femaleLicences := 0,
    maleLicences := 7,
    counts := [("F - 1 à 4 ans", 0), ("H - 1 à 4 ans", 7)] }

/-- The cleaned row produced from the single row of `negRaw`. -/
def negCleanRow : CRow :=
  { federation := "FF Football", region := "IDF", departement := "75",
    communeCode := "75056", totalLicences := 10, femaleLicences := -3,
    maleLicences := 0, counts := [("F - 1 à 4 ans", -3)] }

/-- The first row of `sampleClean` (no gender overwrite). -/
def sampleCleanRow1 : CRow :=
  { federation := "FF Football", region := "IDF", departement := "75",
    communeCode := "75056", totalLicences := 10, femaleLicences := 3,
    maleLicences := 7,
    counts := [("F - 1 à 4 ans", 3), ("H - 1 à 4 ans", 7)] }

/-- The pyramid data computed over `sampleClean`. -/
def samplePyramid : List PyrEntry :=
  [{ tranche := "1 à 4 ans", licences := 4, sexe := "Female",
     absLicences := 4 },
   { tranche := "1 à 4 ans", licences := -7, sexe := "Male",
     absLicences := 7 }]

/-- C1: the prep function returns the empty result exactly on an empty input
table; on every non-empty table it succeeds and returns the cleaned rows with
the discovered female and male bracket-column lists. -/
theorem c1_prep_total (t : RawTable) :
    (clean_and_prep_data t = none ↔ t.rows = []) ∧
    (t.rows ≠ [] → clean_and_prep_data t =
      some (t.rows.map (cleanRow (ageColsOf t) (fColsOf t) (hColsOf t)),
            fColsOf t, hColsOf t)) := by
  constructor
  · constructor
    · intro hn
      unfold clean_and_prep_data at hn
      by_cases h : t.rows.isEmpty
      · exact List.isEmpty_iff.mp h
      · simp [h] at hn
    · intro he
      unfold clean_and_prep_data
      simp [he]
  · intro h
    unfold clean_and_prep_data
    simp [List.isEmpty_iff, h]


/-- Looking up a key in an association list built by pairing each key of `cs`
with `f` applied to it finds the pair for the key. -/
theorem find?_map_key {β : Type} (f : String → β) (cs : List String) (c : String)
    (hc : c ∈ cs) :
    (cs.map (fun x => (x, f x))).find? (fun p => p.1 == c) = some (c, f c) := by
  induction cs with
  | nil => cases hc
  | cons x rest ih =>
    simp only [List.map_cons]
    rcases eq_or_ne x c with he | hne
    · subst he
      exact List.find?_cons_of_pos _ (by simp)
    · rw [List.find?_cons_of_neg _ (by simp [hne])]
      exact ih (by
        rcases List.mem_cons.mp hc with h | h
        · exact absurd h.symm hne
        · exact h)

/-- On a discovered age column, the cleaned row holds the coercion of the raw
cell. -/
theorem getCount_cleanRow (ageCols fcols hcols : List String) (r : RRow)
    (c : String) (hc : c ∈ ageCols) :
    getCount (cleanRow ageCols fcols hcols r) c = coerceCell (rawCell r c) := by
  unfold getCount cleanRow
  rw [find?_map_key (fun x => coerceCell (rawCell r x)) ageCols c hc]

/-- Zeroing a set of columns rewrites the looked-up association pair
pointwise. -/
theorem find?_zeroCols (cols : List String) (counts : List (String × Int))
    (c : String) :
    (zeroCols cols counts).find? (fun p => p.1 == c) =
      (counts.find? (fun p => p.1 == c)).map
        (fun p => if p.1 ∈ cols then (p.1, 0) else p) := by
  induction counts with
  | nil => rfl
  | cons p rest ih =>
    simp only [zeroCols] at ih ⊢
    simp only [List.map_cons, List.find?_cons]
    by_cases hmem : p.1 ∈ cols
    · rw [if_pos hmem]
      by_cases hp : (p.1 == c) = true
      · simp [hp, hmem]
      · simp [hp, ih]
    · rw [if_neg hmem]
      by_cases hp : (p.1 == c) = true
      · simp [hp, hmem]
      · simp [hp, ih]

/-- A column in the zeroed set reads 0 after `zeroCols`. -/
theorem getCount_zeroCols_mem (r : CRow) (cols : List String)
    (counts : List (String × Int)) (c : String) (hc : c ∈ cols)
    (hr : r.counts = zeroCols cols counts) : getCount r c = 0 := by
  unfold getCount
  rw [hr, find?_zeroCols]
  cases hfind : counts.find? (fun p => p.1 == c) with
  | none => rfl
  | some p =>
    have hpc : p.1 = c := by simpa using List.find?_some hfind
    simp [hpc, hc]

/-- A column outside the zeroed set is unchanged by `zeroCols`. -/
theorem getCount_zeroCols_not_mem (r r0 : CRow) (cols : List String)
    (c : String) (hc : c ∉ cols) (hr : r.counts = zeroCols cols r0.counts) :
    getCount r c = getCount r0 c := by
  unfold getCount
  rw [hr, find?_zeroCols]
  cases hfind : r0.counts.find? (fun p => p.1 == c) with
  | none => rfl
  | some p =>
    have hpc : p.1 = c := by simpa using List.find?_some hfind
    simp [hpc, hc]

/-- Two prescribed first characters of the same character list agree. -/
theorem listStarts_head (a b : Char) (p q l : List Char)
    (ha : listStarts (a :: p) l = true) (hb : listStarts (b :: q) l = true) :
    a = b := by
  cases l with
  | nil => simp [listStarts] at ha
  | cons c cs =>
    simp only [listStarts, Bool.and_eq_true, beq_iff_eq] at ha hb
    exact ha.1.trans hb.1.symm

/-- No column name starts with both the female and the male bracket marker. -/
theorem strStarts_F_H (c : String) (hF : strStarts "F - " c = true)
    (hH : strStarts "H - " c = true) : False := by
  unfold strStarts at hF hH
  have hf : ("F - ").toList = 'F' :: [' ', '-', ' '] := by decide
  have hh : ("H - ").toList = 'H' :: [' ', '-', ' '] := by decide
  rw [hf] at hF
  rw [hh] at hH
  have := listStarts_head 'F' 'H' _ _ _ hF hH
  exact absurd this (by decide)

/-- The discovered female and male bracket-column lists are disjoint. -/
theorem fCols_hCols_disjoint (t : RawTable) (c : String) (hf : c ∈ fColsOf t)
    (hh : c ∈ hColsOf t) : False := by
  unfold fColsOf at hf
  unfold hColsOf at hh
  exact strStarts_F_H c (List.mem_filter.mp hf).2 (List.mem_filter.mp hh).2

/-- What a successful prep run returns: the two discovered column lists and
the row-wise cleaned table. -/
theorem prep_inv (t : RawTable) (df : List CRow) (fcols hcols : List String)
    (hp : clean_and_prep_data t = some (df, fcols, hcols)) :
    fcols = fColsOf t ∧ hcols = hColsOf t ∧
    df = t.rows.map (cleanRow (ageColsOf t) (fColsOf t) (hColsOf t)) := by
  unfold clean_and_prep_data at hp
  by_cases h : t.rows.isEmpty
  · simp [h] at hp
  · simp only [h, if_neg, Bool.false_eq_true, not_false_iff, if_false,
      Option.some.injEq, Prod.mk.injEq] at hp
    exact ⟨hp.2.1.symm, hp.2.2.symm, hp.1.symm⟩

/-- A row of the restricted table is a row of the input and satisfies the
active membership predicates. -/
theorem mem_filterRows {df : List CRow} {sf sr : List String} {r : CRow}
    (h : r ∈ filterRows df sf sr) :
    r ∈ df ∧ (sf.isEmpty = false → sf.contains r.federation = true) ∧
    (sr.isEmpty = false → sr.contains r.region = true) := by
  unfold filterRows at h
  by_cases h1 : sf.isEmpty <;> by_cases h2 : sr.isEmpty <;>
    simp only [h1, h2, if_true, if_false, Bool.false_eq_true, if_neg,
      not_false_iff, List.mem_filter] at h
  · exact ⟨h, by simp [h1], by simp [h2]⟩
  · exact ⟨h.1, by simp [h1], fun _ => h.2⟩
  · exact ⟨h.1, fun _ => h.2, by simp [h2]⟩
  · exact ⟨h.1.1, fun _ => h.1.2, fun _ => h.2⟩

/-- Restricting a table whose rows all satisfy the active predicates changes
nothing. -/
theorem filterRows_eq_self {l : List CRow} {sf sr : List String}
    (hf : ∀ r ∈ l, sf.isEmpty = false → sf.contains r.federation = true)
    (hr : ∀ r ∈ l, sr.isEmpty = false → sr.contains r.region = true) :
    filterRows l sf sr = l := by
  unfold filterRows
  by_cases h1 : sf.isEmpty <;> by_cases h2 : sr.isEmpty <;>
    simp only [h1, h2, if_true, if_false, Bool.false_eq_true, if_neg,
      not_false_iff]
  · rw [List.filter_eq_self.mpr (fun r hrl => hr r hrl (by simp [h2]))]
  · rw [List.filter_eq_self.mpr (fun r hrl => hf r hrl (by simp [h1]))]
  · rw [List.filter_eq_self.mpr (fun r hrl => hf r hrl (by simp [h1]))]
    rw [List.filter_eq_self.mpr (fun r hrl => hr r hrl (by simp [h2]))]

/-- The gender overwrite never changes the federation of a row. -/
theorem genderAdjust_federation (g : Gender) (fcols hcols : List String)
    (r : CRow) : (genderAdjust g fcols hcols r).federation = r.federation := by
  cases g <;> rfl

/-- The gender overwrite never changes the region of a row. -/
theorem genderAdjust_region (g : Gender) (fcols hcols : List String)
    (r : CRow) : (genderAdjust g fcols hcols r).region = r.region := by
  cases g <;> rfl

/-- Zeroing a set of columns twice is the same as zeroing it once. -/
theorem zeroCols_idem (cols : List String) (counts : List (String × Int)) :
    zeroCols cols (zeroCols cols counts) = zeroCols cols counts := by
  unfold zeroCols
  rw [List.map_map]
  refine List.map_congr_left (fun p _ => ?_)
  by_cases hp : p.1 ∈ cols <;> simp [hp, Function.comp]

/-- The gender overwrite is idempotent on a row. -/
theorem genderAdjust_idem (g : Gender) (fcols hcols : List String) (r : CRow) :
    genderAdjust g fcols hcols (genderAdjust g fcols hcols r) =
      genderAdjust g fcols hcols r := by
  cases g <;> simp [genderAdjust, zeroCols_idem]

/-- Witness for C1 at a concrete non-empty table. -/
theorem c1_witness :
    clean_and_prep_data sampleRaw =
      some (sampleRaw.rows.map
              (cleanRow (ageColsOf sampleRaw) (fColsOf sampleRaw)
                (hColsOf sampleRaw)),
            fColsOf sampleRaw, hColsOf sampleRaw) :=
  (c1_prep_total sampleRaw).2 (by decide)

/-- C2: on a cleaned table, Male mode makes every filtered row carry its
male-only aggregate as total while its female aggregate and female bracket
columns read 0; Female mode is symmetric; All mode leaves every row of the
result a row of the input, untouched. -/
theorem c2_gender_modes (t : RawTable) (df : List CRow)
    (fcols hcols sf sr : List String)
    (hp : clean_and_prep_data t = some (df, fcols, hcols)) :
    (∀ r ∈ filterEngine df fcols hcols sf sr .male,
        r.totalLicences = (hcols.map (fun c => getCount r c)).sum ∧
        r.femaleLicences = 0 ∧ ∀ c ∈ fcols, getCount r c = 0) ∧
    (∀ r ∈ filterEngine df fcols hcols sf sr .female,
        r.totalLicences = (fcols.map (fun c => getCount r c)).sum ∧
        r.maleLicences = 0 ∧ ∀ c ∈ hcols, getCount r c = 0) ∧
    (∀ r ∈ filterEngine df fcols hcols sf sr .all, r ∈ df) := by
  obtain ⟨hf, hh, hdf⟩ := prep_inv t df fcols hcols hp
  subst hf
  subst hh
  subst hdf
  refine ⟨?_, ?_, ?_⟩
  · intro r hr
    simp only [filterEngine] at hr
    obtain ⟨r0, hr0, rfl⟩ := List.mem_map.mp hr
    have hr0df := (mem_filterRows hr0).1
    obtain ⟨r1, _, rfl⟩ := List.mem_map.mp hr0df
    refine ⟨?_, rfl, ?_⟩
    · have hmap : (hColsOf t).map
          (fun c => getCount (genderAdjust .male (fColsOf t) (hColsOf t)
            (cleanRow (ageColsOf t) (fColsOf t) (hColsOf t) r1)) c) =
          (hColsOf t).map (fun c => coerceCell (rawCell r1 c)) := by
        refine List.map_congr_left (fun c hc => ?_)
        have hcF : c ∉ fColsOf t := fun hcf => fCols_hCols_disjoint t c hcf hc
        rw [getCount_zeroCols_not_mem _
          (cleanRow (ageColsOf t) (fColsOf t) (hColsOf t) r1) _ c hcF rfl]
        exact getCount_cleanRow _ _ _ r1 c (List.mem_of_mem_filter hc)
      rw [hmap]
      rfl
    · intro c hc
      exact getCount_zeroCols_mem _ (fColsOf t)
        (cleanRow (ageColsOf t) (fColsOf t) (hColsOf t) r1).counts c hc rfl
  · intro r hr
    simp only [filterEngine] at hr
    obtain ⟨r0, hr0, rfl⟩ := List.mem_map.mp hr
    have hr0df := (mem_filterRows hr0).1
    obtain ⟨r1, _, rfl⟩ := List.mem_map.mp hr0df
    refine ⟨?_, rfl, ?_⟩
    · have hmap : (fColsOf t).map
          (fun c => getCount (genderAdjust .female (fColsOf t) (hColsOf t)
            (cleanRow (ageColsOf t) (fColsOf t) (hColsOf t) r1)) c) =
          (fColsOf t).map (fun c => coerceCell (rawCell r1 c)) := by
        refine List.map_congr_left (fun c hc => ?_)
        have hcH : c ∉ hColsOf t := fun hch => fCols_hCols_disjoint t c hc hch
        rw [getCount_zeroCols_not_mem _
          (cleanRow (ageColsOf t) (fColsOf t) (hColsOf t) r1) _ c hcH rfl]
        exact getCount_cleanRow _ _ _ r1 c (List.mem_of_mem_filter hc)
      rw [hmap]
      rfl
    · intro c hc
      exact getCount_zeroCols_mem _ (hColsOf t)
        (cleanRow (ageColsOf t) (fColsOf t) (hColsOf t) r1).counts c hc rfl
  · intro r hr
    simp only [filterEngine] at hr
    obtain ⟨r0, hr0, rfl⟩ := List.mem_map.mp hr
    exact (mem_filterRows hr0).1

/-- Witness for C2: the Male-mode engine output on the sample table. -/
theorem c2_witness :
    sampleMaleRow.totalLicences =
      (["H - 1 à 4 ans"].map (fun c => getCount sampleMaleRow c)).sum ∧
    sampleMaleRow.femaleLicences = 0 ∧
    ∀ c ∈ ["F - 1 à 4 ans"], getCount sampleMaleRow c = 0 :=
  (c2_gender_modes sampleRaw sampleClean ["F - 1 à 4 ans"] ["H - 1 à 4 ans"]
    [] [] (by decide)).1 sampleMaleRow (by decide)

/-- C5 fails as stated: under Male mode the engine rewrites rows, so an output
row need not be a row of the cleaned input table. -/
theorem c5_counterexample :
    ¬ (∀ r ∈ filterEngine sampleClean (fColsOf sampleRaw) (hColsOf sampleRaw)
          [] [] .male, r ∈ sampleClean) := by decide

/-- C5 amended: every output row of the engine is obtained from a row of the
input by the gender-mode overwrite (so none is fabricated), and under All mode
every output row is literally a row of the input. -/
theorem c5_no_fabrication (df : List CRow) (fcols hcols sf sr : List String)
    (g : Gender) :
    (∀ r ∈ filterEngine df fcols hcols sf sr g,
        ∃ r0 ∈ df, r = genderAdjust g fcols hcols r0) ∧
    (∀ r ∈ filterEngine df fcols hcols sf sr .all, r ∈ df) := by
  constructor
  · intro r hr
    simp only [filterEngine] at hr
    obtain ⟨r0, hr0, rfl⟩ := List.mem_map.mp hr
    exact ⟨r0, (mem_filterRows hr0).1, rfl⟩
  · intro r hr
    simp only [filterEngine] at hr
    obtain ⟨r0, hr0, rfl⟩ := List.mem_map.mp hr
    exact (mem_filterRows hr0).1

/-- Witness for the amended C5 on the sample table. -/
theorem c5_witness :
    ∃ r0 ∈ sampleClean,
      sampleMaleRow = genderAdjust .male (fColsOf sampleRaw)
        (hColsOf sampleRaw) r0 :=
  (c5_no_fabrication sampleClean (fColsOf sampleRaw) (hColsOf sampleRaw)
    [] [] .male).1 sampleMaleRow (by decide)

/-- C6: the Filter Engine is idempotent for any fixed selections. -/
theorem c6_filter_idempotent (df : List CRow)
    (fcols hcols sf sr : List String) (g : Gender) :
    filterEngine (filterEngine df fcols hcols sf sr g) fcols hcols sf sr g =
      filterEngine df fcols hcols sf sr g := by
  unfold filterEngine
  have h1 : filterRows ((filterRows df sf sr).map (genderAdjust g fcols hcols))
      sf sr = (filterRows df sf sr).map (genderAdjust g fcols hcols) := by
    apply filterRows_eq_self
    · intro r hr hne
      obtain ⟨r0, hr0, rfl⟩ := List.mem_map.mp hr
      rw [genderAdjust_federation]
      exact (mem_filterRows hr0).2.1 hne
    · intro r hr hne
      obtain ⟨r0, hr0, rfl⟩ := List.mem_map.mp hr
      rw [genderAdjust_region]
      exact (mem_filterRows hr0).2.2 hne
  rw [h1, List.map_map]
  exact List.map_congr_left (fun r _ => genderAdjust_idem g fcols hcols r)

/-- C3: the geographic aggregation yields exactly one record per department
present in the filtered table, carrying the departmental licence sum and row
count. -/
theorem c3_choropleth_agg (df : List CRow) :
    ((plot_choropleth_map df).map (·.1)).Nodup ∧
    (∀ d, d ∈ (plot_choropleth_map df).map (·.1) ↔
        d ∈ df.map (·.departement)) ∧
    (∀ e ∈ plot_choropleth_map df,
        e.2.1 = sumTotal (df.filter (fun r => r.departement == e.1)) ∧
        e.2.2 = (df.filter (fun r => r.departement == e.1)).length) := by
  have hkeys : (plot_choropleth_map df).map (·.1) =
      sortedKeys (df.map (·.departement)) := by
    unfold plot_choropleth_map
    rw [List.map_map]
    exact (List.map_congr_left fun d _ => rfl).trans (List.map_id _)
  refine ⟨?_, ?_, ?_⟩
  · rw [hkeys]
    unfold sortedKeys
    exact (List.perm_insertionSort strKeyLE _).symm.nodup
      (List.nodup_dedup (df.map (·.departement)))
  · intro d
    rw [hkeys]
    unfold sortedKeys
    rw [List.mem_insertionSort]
    exact List.mem_dedup
  · intro e he
    unfold plot_choropleth_map at he
    obtain ⟨d, _, rfl⟩ := List.mem_map.mp he
    exact ⟨rfl, rfl⟩

/-- Witness for C3 at the sample table's first department record. -/
theorem c3_witness :
    (10 : Int) = sumTotal (sampleClean.filter (fun r => r.departement == "75")) ∧
    (1 : Nat) = (sampleClean.filter (fun r => r.departement == "75")).length :=
  (c3_choropleth_agg sampleClean).2.2 ("75", 10, 1) (by decide)

/-- C4 fails as stated: a negative raw numeric value in an age-bracket column
survives cleaning, so cleaned bracket values are not always non-negative. -/
theorem c4_counterexample :
    ¬ (∀ (t : RawTable) (df : List CRow) (f h : List String),
        clean_and_prep_data t = some (df, f, h) →
        ∀ r ∈ df, ∀ c ∈ f ++ h, 0 ≤ getCount r c) := by
  intro H
  have h1 : clean_and_prep_data negRaw =
      some ([negCleanRow], fColsOf negRaw, hColsOf negRaw) := by decide
  have h2 := H negRaw [negCleanRow] (fColsOf negRaw) (hColsOf negRaw) h1
    negCleanRow (by decide) "F - 1 à 4 ans" (by decide)
  exact absurd h2 (by decide)

/-- C4 amended: every discovered age-bracket column of a cleaned row holds the
integer coercion of the raw cell (missing or non-numeric coerces to 0), and is
therefore non-negative whenever every numeric raw cell value is
non-negative. -/
theorem c4_age_coercion (t : RawTable) (df : List CRow) (f h : List String)
    (hp : clean_and_prep_data t = some (df, f, h)) :
    (∀ r1 ∈ t.rows, ∀ c, c ∈ f ∨ c ∈ h →
        getCount (cleanRow (ageColsOf t) f h r1) c = coerceCell (rawCell r1 c)) ∧
    ((∀ r1 ∈ t.rows, ∀ p ∈ r1.cells, ∀ v : Int, p.2 = some v → 0 ≤ v) →
      ∀ r ∈ df, ∀ c, c ∈ f ∨ c ∈ h → 0 ≤ getCount r c) := by
  obtain ⟨hf, hh, hdf⟩ := prep_inv t df f h hp
  subst hf
  subst hh
  subst hdf
  have hage : ∀ c, c ∈ fColsOf t ∨ c ∈ hColsOf t → c ∈ ageColsOf t := by
    intro c hc
    rcases hc with hc | hc <;> exact List.mem_of_mem_filter hc
  constructor
  · intro r1 _ c hc
    exact getCount_cleanRow _ _ _ r1 c (hage c hc)
  · intro hnn r hr c hc
    obtain ⟨r1, hr1, rfl⟩ := List.mem_map.mp hr
    rw [getCount_cleanRow _ _ _ r1 c (hage c hc)]
    unfold coerceCell rawCell
    cases hfind : r1.cells.find? (fun p => p.1 == c) with
    | none => simp
    | some p =>
      simp only
      cases hp2 : p.2 with
      | none => simp
      | some v =>
        simp only [Option.getD_some]
        exact hnn r1 hr1 p (List.mem_of_find?_eq_some hfind) v hp2

/-- Witness for the amended C4 on the sample table. -/
theorem c4_witness : 0 ≤ getCount sampleCleanRow1 "F - 1 à 4 ans" :=
  (c4_age_coercion sampleRaw sampleClean ["F - 1 à 4 ans"] ["H - 1 à 4 ans"]
    (by decide)).2 (by decide) sampleCleanRow1 (by decide) "F - 1 à 4 ans"
    (Or.inl (by decide))

/-- C7: the KPI builder returns exactly (sum, count, sum/count) on a non-empty
table and (0, 0, 0) on an empty one. -/
theorem c7_kpi (df : List CRow) :
    (df.length ≠ 0 → plot_kpi_metrics df =
        (sumTotal df, df.length, (sumTotal df : ℚ) / (df.length : ℚ))) ∧
    (df.length = 0 → plot_kpi_metrics df = (0, 0, 0)) := by
  constructor
  · intro h
    unfold plot_kpi_metrics
    simp [Nat.pos_of_ne_zero h]
  · intro h
    have hd : df = [] := List.length_eq_zero.mp h
    subst hd
    rfl

/-- Witness for C7 on the sample table. -/
theorem c7_witness :
    plot_kpi_metrics sampleClean =
      (sumTotal sampleClean, sampleClean.length,
        (sumTotal sampleClean : ℚ) / (sampleClean.length : ℚ)) :=
  (c7_kpi sampleClean).1 (by decide)

/-- C10: the filtering block never mutates the cleaned table; after it runs
the cleaned table is unchanged row for row. -/
theorem c10_no_mutation (df : List CRow) (fcols hcols sf sr : List String)
    (g : Gender) :
    (appFilterBlock df fcols hcols sf sr g).1 = df ∧
    ∀ i : Nat, ((appFilterBlock df fcols hcols sf sr g).1)[i]? = df[i]? :=
  ⟨rfl, fun _ => rfl⟩

/-- C9: in the concatenated pyramid sequence, every female entry's signed
value is its absolute value and every male entry's signed value is the
negation of its absolute value, the absolute value being the column-wise sum
of the entry's bracket column over the filtered rows. -/
theorem c9_pyramid_signs (fcols hcols : List String) (df : List CRow)
    (es : List PyrEntry) (hp : plot_age_pyramid fcols hcols df = some es) :
    ∀ e ∈ es,
      (e.sexe = "Female" → e.licences = e.absLicences ∧
        ∃ c ∈ fcols, e.absLicences = colSum df c) ∧
      (e.sexe = "Male" → e.licences = -e.absLicences ∧
        ∃ c ∈ hcols, e.absLicences = colSum df c) := by
  unfold plot_age_pyramid at hp
  by_cases h1 : fcols.isEmpty || hcols.isEmpty
  · simp [h1] at hp
  · rw [if_neg (by simp [h1])] at hp
    by_cases h2 : df.isEmpty
    · simp [h2] at hp
    · rw [if_neg (by simp [h2])] at hp
      by_cases h3 : (fcols.map (fun c =>
          ({ tranche := strReplaceAll "F - " "" c, licences := colSum df c,
             sexe := "Female", absLicences := colSum df c } : PyrEntry)) ++
          hcols.map (fun c =>
          ({ tranche := strReplaceAll "H - " "" c, licences := -(colSum df c),
             sexe := "Male", absLicences := colSum df c } : PyrEntry))).isEmpty
      · rw [if_pos h3] at hp
        cases hp
      · rw [if_neg h3] at hp
        obtain rfl := Option.some.injEq _ _ ▸ hp
        have hes := (Option.some.inj hp).symm
        intro e he
        rw [← hes] at he
        rcases List.mem_append.mp he with hF | hH
        · obtain ⟨c, hc, rfl⟩ := List.mem_map.mp hF
          constructor
          · intro _
            exact ⟨rfl, c, hc, rfl⟩
          · intro hbad
            simp at hbad
        · obtain ⟨c, hc, rfl⟩ := List.mem_map.mp hH
          constructor
          · intro hbad
            simp at hbad
          · intro _
            exact ⟨rfl, c, hc, rfl⟩

/-- Witness for C9 at the male entry of the sample pyramid. -/
theorem c9_witness :
    (-7 : Int) = -(7 : Int) ∧
    ∃ c ∈ ["H - 1 à 4 ans"], (7 : Int) = colSum sampleClean c :=
  (c9_pyramid_signs ["F - 1 à 4 ans"] ["H - 1 à 4 ans"] sampleClean
    samplePyramid (by decide) ⟨"1 à 4 ans", -7, "Male", 7⟩ (by decide)).2 rfl

/-- The ranking aggregation is a permutation of the per-federation metric
pairs over the distinct federations. -/
theorem aggBy_perm (df : List CRow) (b : RankBy) :
    List.Perm (aggBy df b)
      (((df.map (·.federation)).dedup).map (fun f => (f, fedMetric df b f))) := by
  cases b with
  | licences =>
    unfold aggBy sortedKeys
    exact (List.perm_insertionSort strKeyLE _).map _
  | implantation =>
    unfold aggBy
    exact List.perm_insertionSort valGE _

/-- C8: the Top-N ranking has size min(15, number of distinct federations),
its values are sorted ascending, and its maximum value is the true maximum of
the chosen metric over all federations of the filtered table. -/
theorem c8_top_federations (df : List CRow) (b : RankBy) :
    (plot_top_federations df b).length =
      min 15 ((df.map (·.federation)).dedup).length ∧
    ((plot_top_federations df b).map (·.2)).Sorted (· ≤ ·) ∧
    ((plot_top_federations df b).map (·.2)).maximum =
      (((df.map (·.federation)).dedup).map (fedMetric df b)).maximum := by
  have hperm_ds : List.Perm (List.insertionSort valGE (aggBy df b))
      (aggBy df b) :=
    List.perm_insertionSort valGE (aggBy df b)
  have hperm_res : List.Perm (plot_top_federations df b)
      ((List.insertionSort valGE (aggBy df b)).take 15) := by
    unfold plot_top_federations nlargest15
    exact List.perm_insertionSort valLE _
  have hpermA := aggBy_perm df b
  refine ⟨?_, ?_, ?_⟩
  · rw [hperm_res.length_eq, List.length_take, hperm_ds.length_eq,
        hpermA.length_eq, List.length_map]
  · have hs : List.Sorted valLE (plot_top_federations df b) := by
      unfold plot_top_federations
      exact List.sorted_insertionSort valLE _
    exact List.pairwise_map.mpr (hs.imp (fun h => h))
  · cases hd : List.insertionSort valGE (aggBy df b) with
    | nil =>
      have hagg_nil : aggBy df b = [] := by
        have hlen := hperm_ds.length_eq
        rw [hd] at hlen
        exact List.length_eq_zero.mp hlen.symm
      have hded : (df.map (·.federation)).dedup = [] := by
        have hlen := hpermA.length_eq
        rw [hagg_nil, List.length_map] at hlen
        exact List.length_eq_zero.mp hlen.symm
      have hres : plot_top_federations df b = [] := by
        have hlen := hperm_res.length_eq
        rw [hd] at hlen
        exact List.length_eq_zero.mp (by simpa using hlen)
      rw [hres, hded]
      rfl
    | cons d dt =>
      have hsorted : List.Sorted valGE
          (List.insertionSort valGE (aggBy df b)) :=
        List.sorted_insertionSort valGE (aggBy df b)
      have hub_ds : ∀ x ∈ List.insertionSort valGE (aggBy df b),
          x.2 ≤ d.2 := by
        intro x hx
        rw [hd] at hx hsorted
        rcases List.mem_cons.mp hx with rfl | hx
        · exact le_refl _
        · exact List.rel_of_sorted_cons hsorted x hx
      have hub_agg : ∀ x ∈ aggBy df b, x.2 ≤ d.2 := fun x hx =>
        hub_ds x (hperm_ds.mem_iff.mpr hx)
      have hd_mem_res : d ∈ plot_top_federations df b := by
        apply hperm_res.mem_iff.mpr
        rw [hd]
        rw [show (15 : Nat) = 14 + 1 from rfl, List.take_succ_cons]
        exact List.mem_cons_self _ _
      have hsub_res : ∀ x ∈ plot_top_federations df b, x ∈ aggBy df b := by
        intro x hx
        have hx1 : x ∈ (List.insertionSort valGE (aggBy df b)).take 15 :=
          hperm_res.mem_iff.mp hx
        exact hperm_ds.mem_iff.mp (List.take_subset 15 _ hx1)
      have hmax_res : ((plot_top_federations df b).map (·.2)).maximum =
          (d.2 : WithBot Int) := by
        apply List.maximum_eq_coe_iff.mpr
        constructor
        · exact List.mem_map_of_mem _ hd_mem_res
        · intro a ha
          obtain ⟨x, hx, rfl⟩ := List.mem_map.mp ha
          exact hub_agg x (hsub_res x hx)
      have hmax_rhs :
          ((((df.map (·.federation)).dedup).map (fedMetric df b)).maximum) =
            (d.2 : WithBot Int) := by
        apply List.maximum_eq_coe_iff.mpr
        constructor
        · have hd_agg : d ∈ aggBy df b := hperm_ds.mem_iff.mp
            (by rw [hd]; exact List.mem_cons_self _ _)
          obtain ⟨f, hf, rfl⟩ := List.mem_map.mp (hpermA.mem_iff.mp hd_agg)
          exact List.mem_map_of_mem _ hf
        · intro a ha
          obtain ⟨f, hf, rfl⟩ := List.mem_map.mp ha
          have hmem : (f, fedMetric df b f) ∈ aggBy df b :=
            hpermA.mem_iff.mpr (List.mem_map_of_mem _ hf)
          exact hub_agg _ hmem
      rw [hmax_res, hmax_rhs]
